import Mathlib

/-!
# Verification of the sand-go token client/service library

Shallow embedding of the `coupa/sand-go` Go library (the `VerificationOption`
variant of `service.go`, the `DefaultRetryCount` variant of the client, and
`util.go` / `cache/go_cache.go`), together with proofs about its retry-count
resolution, cache-key construction, bearer-token extraction, expiry
computation, the 401-retry loop, and the token/verdict caching flows.

Machine integers are modelled as `Int`/`Nat` (the Go code never gets near
overflow for these quantities); Go strings are Lean `String`s; the network and
the system clock are passed in explicitly as oracles; `map[string]interface{}`
verification responses are modelled by a `Verdict` record with the two fields
the code inspects (`allowed`, `exp`).
-/

namespace SandGo

/-- Model of the Go `sand.Client` configuration fields that the verified
operations read.  `hasCache` models `Cache != nil`. -/
structure Client where
  defaultRetryCount : Int
  hasCache : Bool
  cacheRoot : String
  cacheType : String
deriving DecidableEq, Repr

/-- From `client.go` (`part_001`):
```
func (c *Client) clientRequestRetryCount(count int) int {
    if count >= 1 { return count }
    if count == 0 || c.DefaultRetryCount < 1 { return 1 }
    return c.DefaultRetryCount
}
``` -/
def Client.clientRequestRetryCount (c : Client) (count : Int) : Int :=
  if count ≥ 1 then count
  else if count = 0 ∨ c.defaultRetryCount < 1 then 1
  else c.defaultRetryCount

/-- From `client.go` (`part_001`):
```
func (c *Client) tokenRequestRetryCount(count int) int {
    if count >= 0 { return count }
    if c.DefaultRetryCount < 0 { return 0 }
    return c.DefaultRetryCount
}
``` -/
def Client.tokenRequestRetryCount (c : Client) (count : Int) : Int :=
  if count ≥ 0 then count
  else if c.defaultRetryCount < 0 then 0
  else c.defaultRetryCount

/-- Go `strings.Join(elems, sep)` (as used by `cacheKey` with `sep = "_"`). -/
def goJoin (sep : String) : List String → String
  | [] => ""
  | [s] => s
  | s :: t :: rest => s ++ sep ++ goJoin sep (t :: rest)

/-- From `client.go` (`part_001`):
```
func (c *Client) cacheKey(key string, scopes []string, resource string) string {
    rv := c.CacheRoot + "/" + c.cacheType + "/" + key
    if len(scopes) > 0 { rv += "/" + strings.Join(scopes, "_") }
    if resource != "" { rv += "/" + resource }
    return rv
}
``` -/
def Client.cacheKey (c : Client) (key : String) (scopes : List String) (resource : String) : String :=
  let rv := c.cacheRoot ++ "/" ++ c.cacheType ++ "/" ++ key
  let rv := if scopes.length > 0 then rv ++ "/" ++ goJoin "_" scopes else rv
  if resource ≠ "" then rv ++ "/" ++ resource else rv

/-- A concrete client used for witnesses and counterexamples: the default
configuration produced by `NewClient` (retry count 5, root `"sand"`,
type `"resources"`, with a cache). -/
def defaultClient : Client :=
  { defaultRetryCount := 5, hasCache := true, cacheRoot := "sand", cacheType := "resources" }

/-- C1: the client-request retry resolution, stated as the spec's ordered
rules: requested ≥ 1 ⇒ requested; otherwise requested = 0 or default < 1 ⇒ 1;
otherwise (requested < 0 and default ≥ 1) ⇒ default. -/
theorem clientRequestRetryCount_spec (c : Client) (r : Int) :
    (1 ≤ r → c.clientRequestRetryCount r = r) ∧
    (r < 1 → (r = 0 ∨ c.defaultRetryCount < 1) → c.clientRequestRetryCount r = 1) ∧
    (r < 0 → 1 ≤ c.defaultRetryCount → c.clientRequestRetryCount r = c.defaultRetryCount) := by
  unfold Client.clientRequestRetryCount
  refine ⟨fun h => ?_, fun h1 h2 => ?_, fun h1 h2 => ?_⟩
  · simp [h]
  · rw [if_neg (by omega), if_pos h2]
  · rw [if_neg (by omega), if_neg (by omega)]

/-- Witness for C1, exercising all three rules on the default client. -/
theorem clientRequestRetryCount_spec_witness :
    defaultClient.clientRequestRetryCount 3 = 3 ∧
    defaultClient.clientRequestRetryCount 0 = 1 ∧
    defaultClient.clientRequestRetryCount (-2) = 5 :=
  ⟨(clientRequestRetryCount_spec defaultClient 3).1 (by decide),
   (clientRequestRetryCount_spec defaultClient 0).2.1 (by decide) (Or.inl rfl),
   (clientRequestRetryCount_spec defaultClient (-2)).2.2 (by decide) (by decide)⟩

/-- C2: the token-fetch retry resolution: requested ≥ 0 ⇒ requested;
requested < 0 and default < 0 ⇒ 0; requested < 0 ⇒ max(default, 0). -/
theorem tokenRequestRetryCount_spec (c : Client) (r : Int) :
    (0 ≤ r → c.tokenRequestRetryCount r = r) ∧
    (r < 0 → c.defaultRetryCount < 0 → c.tokenRequestRetryCount r = 0) ∧
    (r < 0 → c.tokenRequestRetryCount r = max c.defaultRetryCount 0) := by
  unfold Client.tokenRequestRetryCount
  refine ⟨fun h => ?_, fun h1 h2 => ?_, fun h1 => ?_⟩
  · simp [h]
  · rw [if_neg (by omega), if_pos h2]
  · rw [if_neg (by omega)]
    by_cases hd : c.defaultRetryCount < 0
    · rw [if_pos hd]; omega
    · rw [if_neg hd]; omega

/-- Witness for C2, exercising all three rules on the default client. -/
theorem tokenRequestRetryCount_spec_witness :
    defaultClient.tokenRequestRetryCount 0 = 0 ∧
    defaultClient.tokenRequestRetryCount (-1) = max 5 0 :=
  ⟨(tokenRequestRetryCount_spec defaultClient 0).1 (by decide),
   (tokenRequestRetryCount_spec defaultClient (-1)).2.2 (by decide)⟩

/-! ## Cache-key structure (claims C7, C8) -/

/-- Character-list image of `goJoin`, used to reason about the joined scope
segment. -/
def joinCharList (sep : List Char) : List (List Char) → List Char
  | [] => []
  | [x] => x
  | x :: y :: rest => x ++ sep ++ joinCharList sep (y :: rest)

theorem goJoin_data (sep : String) :
    ∀ ss : List String, (goJoin sep ss).data = joinCharList sep.data (ss.map String.data)
  | [] => rfl
  | [s] => rfl
  | s :: t :: rest => by
    simp only [goJoin, joinCharList, List.map, String.data_append]
    rw [← List.map, ← goJoin_data sep (t :: rest)]

theorem not_mem_joinCharList (c sepc : Char) (hc : c ≠ sepc) :
    ∀ parts : List (List Char), (∀ p ∈ parts, c ∉ p) → c ∉ joinCharList [sepc] parts
  | [], _ => by simp [joinCharList]
  | [x], h => by simpa [joinCharList] using h x (by simp)
  | x :: y :: rest, h => by
    simp only [joinCharList, List.mem_append, List.mem_singleton]
    intro hmem
    rcases hmem with (hx | hs) | hj
    · exact h x (by simp) hx
    · exact hc hs
    · exact not_mem_joinCharList c sepc hc (y :: rest) (fun p hp => h p (by simp [hp])) hj

/-- Splitting on the first occurrence of a separator character is unambiguous
when both left parts avoid the separator. -/
theorem append_cons_inj (c : Char) :
    ∀ (x1 x2 y1 y2 : List Char), c ∉ x1 → c ∉ x2 →
      x1 ++ c :: y1 = x2 ++ c :: y2 → x1 = x2 ∧ y1 = y2
  | [], [], y1, y2, _, _, h => by simpa using h
  | [], a :: x2, y1, y2, _, h2, h => by
    simp only [List.nil_append, List.cons_append, List.cons.injEq] at h
    exact absurd (h.1 ▸ List.mem_cons_self a x2) h2
  | a :: x1, [], y1, y2, h1, _, h => by
    simp only [List.nil_append, List.cons_append, List.cons.injEq] at h
    exact absurd (h.1.symm ▸ List.mem_cons_self a x1) h1
  | a :: x1, b :: x2, y1, y2, h1, h2, h => by
    simp only [List.cons_append, List.cons.injEq] at h
    have ih := append_cons_inj c x1 x2 y1 y2 (fun m => h1 (List.mem_cons_of_mem a m))
      (fun m => h2 (List.mem_cons_of_mem b m)) h.2
    exact ⟨by rw [h.1, ih.1], ih.2⟩

/-- Joining with a separator character is injective on non-empty lists of
separator-free parts. -/
theorem joinCharList_inj (c : Char) :
    ∀ (l1 l2 : List (List Char)), (∀ x ∈ l1, c ∉ x) → (∀ x ∈ l2, c ∉ x) →
      l1 ≠ [] → l2 ≠ [] → joinCharList [c] l1 = joinCharList [c] l2 → l1 = l2
  | [], _, _, _, h, _, _ => absurd rfl h
  | _ :: _, [], _, _, _, h, _ => absurd rfl h
  | [x], [y], _, _, _, _, h => by simpa [joinCharList] using h
  | [x], y :: y2 :: t2, hl1, hl2, _, _, h => by
    simp only [joinCharList] at h
    have : c ∈ y ++ [c] ++ joinCharList [c] (y2 :: t2) := by simp
    exact absurd (h ▸ this) (hl1 x (by simp))
  | x :: x2 :: t1, [y], hl1, hl2, _, _, h => by
    simp only [joinCharList] at h
    have : c ∈ x ++ [c] ++ joinCharList [c] (x2 :: t1) := by simp
    exact absurd (h.symm ▸ this) (hl2 y (by simp))
  | x :: x2 :: t1, y :: y2 :: t2, hl1, hl2, _, _, h => by
    simp only [joinCharList, List.append_assoc, List.singleton_append] at h
    obtain ⟨hxy, hrest⟩ := append_cons_inj c x y _ _ (hl1 x (by simp)) (hl2 y (by simp)) h
    have ih := joinCharList_inj c (x2 :: t1) (y2 :: t2)
      (fun p hp => hl1 p (by simp [hp])) (fun p hp => hl2 p (by simp [hp]))
      (by simp) (by simp) hrest
    rw [hxy, ih]

theorem str_append_empty (s : String) : s ++ "" = s := by
  apply String.ext; simp [String.data_append]

/-- The `.data` view of `cacheKey` when both optional segments are present. -/
theorem cacheKey_data (c : Client) (k : String) (ss : List String) (r : String)
    (hss : ss ≠ []) (hr : r ≠ "") :
    (c.cacheKey k ss r).data =
      c.cacheRoot.data ++ '/' :: c.cacheType.data ++ '/' :: k.data ++
        '/' :: (goJoin "_" ss).data ++ '/' :: r.data := by
  have hlen : ss.length > 0 := List.length_pos.mpr hss
  simp [Client.cacheKey, hlen, hr, String.data_append, List.append_assoc]

/-- C7 counterexample: two distinct `(key, scopes, resource)` tuples that the
cache-key builder maps to the same string — a lone scope is indistinguishable
from a resource qualifier. -/
theorem cacheKey_not_injective :
    defaultClient.cacheKey "h" ["r"] "" = defaultClient.cacheKey "h" [] "r" ∧
    (("h", ["r"], "") ≠ ("h", ([] : List String), "r")) := by
  constructor
  · rfl
  · decide

/-- C7 amended: within one cache root and namespace type, `cacheKey` is
injective on tuples whose key and scopes are slash-free, whose scopes are
underscore-free, and whose scope list and resource are non-empty. -/
theorem cacheKey_inj_amended (c : Client) (k1 k2 : String) (ss1 ss2 : List String)
    (r1 r2 : String)
    (hk1 : '/' ∉ k1.data) (hk2 : '/' ∉ k2.data)
    (hs1 : ∀ s ∈ ss1, '/' ∉ s.data ∧ '_' ∉ s.data)
    (hs2 : ∀ s ∈ ss2, '/' ∉ s.data ∧ '_' ∉ s.data)
    (hn1 : ss1 ≠ []) (hn2 : ss2 ≠ []) (hr1 : r1 ≠ "") (hr2 : r2 ≠ "")
    (heq : c.cacheKey k1 ss1 r1 = c.cacheKey k2 ss2 r2) :
    k1 = k2 ∧ ss1 = ss2 ∧ r1 = r2 := by
  have hdata := congrArg String.data heq
  rw [cacheKey_data c k1 ss1 r1 hn1 hr1, cacheKey_data c k2 ss2 r2 hn2 hr2] at hdata
  have hd : c.cacheRoot.data ++
      '/' :: (c.cacheType.data ++
        '/' :: (k1.data ++ '/' :: ((goJoin "_" ss1).data ++ '/' :: r1.data))) =
      c.cacheRoot.data ++
      '/' :: (c.cacheType.data ++
        '/' :: (k2.data ++ '/' :: ((goJoin "_" ss2).data ++ '/' :: r2.data))) := by
    simpa [List.append_assoc] using hdata
  have h1 := List.cons_injective (List.append_cancel_left hd)
  have h2 := List.cons_injective (List.append_cancel_left h1)
  have hjfree1 : '/' ∉ (goJoin "_" ss1).data := by
    rw [goJoin_data]
    exact not_mem_joinCharList '/' '_' (by decide) _
      (by intro p hp; simp only [List.mem_map] at hp
          obtain ⟨s, hs, rfl⟩ := hp; exact (hs1 s hs).1)
  have hjfree2 : '/' ∉ (goJoin "_" ss2).data := by
    rw [goJoin_data]
    exact not_mem_joinCharList '/' '_' (by decide) _
      (by intro p hp; simp only [List.mem_map] at hp
          obtain ⟨s, hs, rfl⟩ := hp; exact (hs2 s hs).1)
  obtain ⟨hkeq, h3⟩ := append_cons_inj '/' k1.data k2.data _ _ hk1 hk2 h2
  obtain ⟨hjeq, hreq⟩ := append_cons_inj '/' (goJoin "_" ss1).data (goJoin "_" ss2).data
    _ _ hjfree1 hjfree2 h3
  refine ⟨String.ext hkeq, ?_, String.ext hreq⟩
  rw [goJoin_data, goJoin_data] at hjeq
  have hmaps : ss1.map String.data = ss2.map String.data := by
    apply joinCharList_inj '_' _ _ ?_ ?_ (by simpa using hn1) (by simpa using hn2)
    · simpa using hjeq
    · intro x hx; simp only [List.mem_map] at hx
      obtain ⟨s, hs, rfl⟩ := hx; exact (hs1 s hs).2
    · intro x hx; simp only [List.mem_map] at hx
      obtain ⟨s, hs, rfl⟩ := hx; exact (hs2 s hs).2
  exact List.map_injective_iff.mpr (fun _ _ h => String.ext h) hmaps

/-- Witness for the amended C7 at concrete inputs. -/
theorem cacheKey_inj_amended_witness :
    ("h" : String) = "h" ∧ (["a", "b"] : List String) = ["a", "b"] ∧ ("r" : String) = "r" :=
  cacheKey_inj_amended defaultClient "h" "h" ["a", "b"] ["a", "b"] "r" "r"
    (by decide) (by decide) (by decide) (by decide)
    (by decide) (by decide) (by decide) (by decide) rfl

/-- C8: the full format of `cacheKey` — base segments always, the `_`-joined
scopes segment exactly when the scope list is non-empty, the resource segment
exactly when the resource is non-empty — and the spec's concrete instance. -/
theorem cacheKey_format :
    (∀ (c : Client) (k : String) (ss : List String) (r : String),
      c.cacheKey k ss r =
        c.cacheRoot ++ "/" ++ c.cacheType ++ "/" ++ k ++
          (if ss = [] then "" else "/" ++ goJoin "_" ss) ++
          (if r = "" then "" else "/" ++ r)) ∧
    defaultClient.cacheKey "h" ["a", "b"] "" = "sand" ++ "/" ++ "resources" ++ "/h/a_b" := by
  constructor
  · intro c k ss r
    unfold Client.cacheKey
    rcases ss with _ | ⟨s, ss⟩ <;> by_cases hr : r = "" <;>
      simp [hr, str_append_empty, String.append_assoc]
  · rfl

/-! ## Bearer-token extraction (claim C9), from `util.go` -/

/-- `strings.Split(s, sep)` for a one-character separator: split at every
occurrence, keeping empty fields (`strings.Split("", " ") = [""]`). -/
def splitOnChar (c : Char) : List Char → List (List Char)
  | [] => [[]]
  | a :: rest =>
    let r := splitOnChar c rest
    if a = c then [] :: r
    else
      match r with
      | [] => [[a]]
      | x :: xs => (a :: x) :: xs

/-- `strings.Trim(s, " ")`: remove leading and trailing spaces. -/
def goTrimSpace (s : String) : String :=
  String.mk (((s.data.dropWhile (fun ch => ch = ' ')).reverse.dropWhile
    (fun ch => ch = ' ')).reverse)

/-- `strings.ToLower`, modelled for the ASCII range (the only range relevant
to comparing against `"bearer"`). -/
def goToLower (s : String) : String :=
  String.mk (s.data.map Char.toLower)

/-- `strings.Split(s, " ")`. -/
def goSplitSpace (s : String) : List String :=
  (splitOnChar ' ' s.data).map String.mk

/-- From `util.go`:
```
func ExtractToken(authHeader string) string {
    values := strings.Split(strings.Trim(authHeader, " "), " ")
    if len(values) > 1 && strings.ToLower(values[0]) == "bearer" {
        return values[1]
    }
    return ""
}
``` -/
def ExtractToken (authHeader : String) : String :=
  let values := goSplitSpace (goTrimSpace authHeader)
  if 1 < values.length ∧ goToLower (values.getD 0 "") = "bearer" then values.getD 1 ""
  else ""

/-- C9 counterexample: a header whose space-trimmed form is not
`bearer`+single space+token (the remainder `"abc d"` contains a space), yet
`ExtractToken` returns the non-empty `"abc"` — and `"abc"` is also not the
full remainder `"abc d"`, so no reading of "the token" matches. This is the
shape the repository's own test expects. -/
theorem extractToken_claim_false :
    ExtractToken " Bearer abc d " = "abc" ∧
    ("abc" : String) ≠ "" ∧ ("abc" : String) ≠ "abc d" := by
  refine ⟨by decide, by decide, by decide⟩

/-- C9 amended: `ExtractToken` returns the second space-separated field of the
space-trimmed header exactly when there are at least two fields and the first
field lowercases to `"bearer"` (further fields are ignored, and the second
field may be empty); every other shape returns the empty string. -/
theorem extractToken_amended (h : String) :
    ExtractToken h =
      match goSplitSpace (goTrimSpace h) with
      | f0 :: f1 :: _ => if goToLower f0 = "bearer" then f1 else ""
      | _ => "" := by
  unfold ExtractToken
  rcases hsplit : goSplitSpace (goTrimSpace h) with _ | ⟨f0, _ | ⟨f1, rest⟩⟩ <;>
    simp [hsplit]

/-! ## Service and expiry computation (claim C6), from `service.go`
(`VerificationOption` variant) -/

/-- Model of `sand.Service` (the `VerificationOption` variant): the embedded
`Client` plus the fields the verified operations read.  `context` stands in
for the opaque `map[string]interface{}` default context (only its emptiness
is ever inspected). -/
structure Service where
  client : Client
  resource : String
  context : List (String × String)
  scopes : List String
  defaultExpTime : Int
deriving DecidableEq, Repr

/-- From `service.go`:
```
func (s *Service) expiryTime(expTime string) int {
    if expTime == "" { return s.DefaultExpTime }
    t, err := time.Parse(iso8601, expTime)
    if err != nil { return s.DefaultExpTime }
    diff := t.Unix() - time.Now().Unix()
    if diff > 0 { return int(diff) }
    return s.DefaultExpTime
}
```
`time.Parse` of the ISO-8601 layout (Go stdlib, external to this repository)
is abstracted as the oracle `parse`, returning the parsed Unix time, and
`time.Now().Unix()` as `now`. -/
def Service.expiryTime (s : Service) (parse : String → Option Int) (now : Int)
    (expTime : String) : Int :=
  if expTime = "" then s.defaultExpTime
  else
    match parse expTime with
    | none => s.defaultExpTime
    | some t =>
      let diff := t - now
      if diff > 0 then diff else s.defaultExpTime

/-- The concrete service used in witnesses: `NewService` defaults (cache type
`"tokens"`, default expiry 3600). -/
def defaultService : Service :=
  { client := { defaultRetryCount := 5, hasCache := true, cacheRoot := "sand",
                cacheType := "tokens" },
    resource := "res", context := [], scopes := [], defaultExpTime := 3600 }

/-- C6: `expiryTime` returns the configured default exactly on the empty
string, a parse failure, or a non-positive difference from now, and otherwise
the positive difference in seconds; in particular a timestamp 100s in the
future yields at most 100. -/
theorem expiryTime_spec (s : Service) (parse : String → Option Int) (now : Int)
    (str : String) :
    (str = "" → s.expiryTime parse now str = s.defaultExpTime) ∧
    (parse str = none → s.expiryTime parse now str = s.defaultExpTime) ∧
    (∀ t, parse str = some t → t - now ≤ 0 →
      s.expiryTime parse now str = s.defaultExpTime) ∧
    (∀ t, str ≠ "" → parse str = some t → 0 < t - now →
      s.expiryTime parse now str = t - now) ∧
    (str ≠ "" → parse str = some (now + 100) → s.expiryTime parse now str ≤ 100) := by
  refine ⟨fun he => ?_, fun hp => ?_, fun t hp hd => ?_, fun t he hp hd => ?_,
    fun he hp => ?_⟩
  · simp [Service.expiryTime, he]
  · by_cases he : str = "" <;> simp [Service.expiryTime, he, hp]
  · by_cases he : str = "" <;> simp [Service.expiryTime, he, hp] <;> omega
  · simp [Service.expiryTime, he, hp]; omega
  · simp [Service.expiryTime, he, hp]

/-- A parse oracle for the C6 witness: recognises one concrete timestamp
string as 100 seconds past the epoch. -/
def sampleParse (str : String) : Option Int :=
  if str = "2016-09-06T08:32:59.71-07:00" then some 100 else none

/-- Witness for C6, exercising the default-fallback rules and the
positive-difference rule at concrete inputs (`now = 0`). -/
theorem expiryTime_spec_witness :
    defaultService.expiryTime sampleParse 0 "" = 3600 ∧
    defaultService.expiryTime sampleParse 0 "bad" = 3600 ∧
    defaultService.expiryTime sampleParse 0 "2016-09-06T08:32:59.71-07:00" = 100 ∧
    defaultService.expiryTime sampleParse 0 "2016-09-06T08:32:59.71-07:00" ≤ 100 :=
  ⟨(expiryTime_spec defaultService sampleParse 0 "").1 rfl,
   (expiryTime_spec defaultService sampleParse 0 "bad").2.1 (by decide),
   (expiryTime_spec defaultService sampleParse 0
      "2016-09-06T08:32:59.71-07:00").2.2.2.1 100 (by decide) (by decide) (by decide),
   (expiryTime_spec defaultService sampleParse 0
      "2016-09-06T08:32:59.71-07:00").2.2.2.2 (by decide) (by decide)⟩

/-! ## Cache model (from `cache/go_cache.go` and `patrickmn/go-cache`) -/

/-- Model of `oauth2.Token` as the client code reads it: the access token and
the expiry (`none` models the zero `time.Time`, meaning no limit; `some e` is
the Unix time of the expiry). -/
structure OauthToken where
  accessToken : String
  expiry : Option Int
deriving DecidableEq, Repr

/-- Model of the verification response `map[string]interface{}` restricted to
the two fields the code inspects: `resp["allowed"]` and `resp["exp"]`
(`none` models an absent key). -/
structure Verdict where
  allowed : Option Bool
  exp : Option String
deriving DecidableEq, Repr

/-- `var notAllowedResponse = map[string]interface{}{"allowed": false}` -/
def notAllowedResponse : Verdict := { allowed := some false, exp := none }

/-- A cached `interface{}` value: either an `oauth2.Token` (written by
`Client.OAuth2Token`) or a verdict map (written by `VerifyTokenWithCache`).
Reads type-assert, so a value of the other kind behaves like a miss. -/
inductive CVal where
  | tok (t : OauthToken)
  | verd (v : Verdict)
deriving DecidableEq, Repr

/-- State of a `GoCache`: the configured default expiration (seconds) and the
entries, each carrying an optional absolute expiry time (`none`: never
expires).  Later writes shadow earlier entries (first match wins on read). -/
structure CacheState where
  defaultExpiration : Int
  entries : List (String × CVal × Option Int)
deriving DecidableEq, Repr

/-- `go-cache`'s `Set`: a duration of 0 (`DefaultExpiration`) selects the
cache-wide default; a positive duration sets an absolute deadline; a negative
duration (`NoExpiration`) stores without a deadline. -/
def goCacheSet (st : CacheState) (now : Int) (k : String) (v : CVal) (d : Int) :
    CacheState :=
  let d := if d = 0 then st.defaultExpiration else d
  let e : Option Int := if d > 0 then some (now + d) else none
  { st with entries := (k, v, e) :: st.entries }

/-- From `cache/go_cache.go`:
```
func (c *GoCache) Write(key string, item interface{}, exp time.Duration) error {
    if exp == cache.DefaultExpiration { exp = cache.NoExpiration }
    c.Set(key, item, exp)
    return nil
}
```
so a TTL of exactly 0 is remapped to never-expires. -/
def GoCache.Write (st : CacheState) (now : Int) (k : String) (v : CVal) (exp : Int) :
    CacheState :=
  let exp := if exp = 0 then -1 else exp
  goCacheSet st now k v exp

/-- `go-cache`'s `Get` as exposed by `GoCache.Read`: first matching entry,
`none` if absent or past its deadline. -/
def goCacheGet (st : CacheState) (now : Int) (k : String) : Option CVal :=
  match st.entries.find? (fun e => e.1 == k) with
  | none => none
  | some (_, v, none) => some v
  | some (_, v, some e) => if now > e then none else some v

/-- `GoCache.Delete`. -/
def goCacheDelete (st : CacheState) (k : String) : CacheState :=
  { st with entries := st.entries.filter (fun e => e.1 ≠ k) }

/-- A cache read followed by the `value.(oauth2.Token)` type assertion. -/
def tokenAt (st : CacheState) (now : Int) (k : String) : Option OauthToken :=
  match goCacheGet st now k with
  | some (.tok t) => some t
  | _ => none

/-- A cache read followed by the `result.(map[string]interface{})` type
assertion. -/
def verdictAt (st : CacheState) (now : Int) (k : String) : Option Verdict :=
  match goCacheGet st now k with
  | some (.verd v) => some v
  | _ => none

/-- Observable actions of the modelled operations, in order of occurrence:
cache reads/writes/deletes, contacting the OAuth token endpoint
(`OAuth2TokenWithoutCaching`), contacting the verification endpoint, backoff
sleeps, invocations of the caller-supplied request function (numbered from 0),
and invocations of `Client.Token` with a given retry count. -/
inductive Event where
  | cacheRead (k : String)
  | cacheWrite (k : String) (v : CVal) (ttl : Int)
  | cacheDelete (k : String)
  | netTokenFetch
  | netVerify
  | sleep (secs : Nat)
  | execCall (i : Nat)
  | tokenReq (numRetry : Int)
deriving DecidableEq, Repr

/-! ## Token acquisition with caching (claim C10), from `client.go`
(`part_001`) -/

/-- From `client.go`:
```
func (c *Client) OAuth2Token(cacheKey string, scopes []string, numRetry int) (*oauth2.Token, error) {
    var ckey string
    if c.Cache != nil && cacheKey != "" {
        ckey = c.cacheKey(cacheKey, scopes, "")
        value := c.Cache.Read(ckey)
        if value != nil {
            if tk, ok := value.(oauth2.Token); ok { return &tk, nil }
        }
    }
    token, err := c.OAuth2TokenWithoutCaching(scopes, numRetry)
    if err != nil { return nil, err }
    if c.Cache != nil && cacheKey != "" {
        expiresIn := 0
        if !token.Expiry.IsZero() {
            expiresIn = int(token.Expiry.Unix() - time.Now().Unix())
        }
        if expiresIn >= 0 {
            c.Cache.Write(ckey, *token, time.Duration(expiresIn)*time.Second)
        }
    }
    return token, nil
}
```
The network call `OAuth2TokenWithoutCaching` is abstracted as the oracle
`fetched` (its retry loop only re-contacts the server, which the oracle
already summarises).  Returns the result, the new cache state, and the trace
of events. -/
def Client.OAuth2Token (c : Client) (now : Int) (cache : CacheState)
    (fetched : Except String OauthToken) (cacheKey : String) (scopes : List String) :
    Except String OauthToken × CacheState × List Event :=
  if c.hasCache ∧ cacheKey ≠ "" then
    let ckey := c.cacheKey cacheKey scopes ""
    match tokenAt cache now ckey with
    | some t => (.ok t, cache, [.cacheRead ckey])
    | none =>
      match fetched with
      | .error e => (.error e, cache, [.cacheRead ckey, .netTokenFetch])
      | .ok token =>
        let expiresIn : Int := match token.expiry with | none => 0 | some e => e - now
        if expiresIn ≥ 0 then
          (.ok token, GoCache.Write cache now ckey (.tok token) expiresIn,
            [.cacheRead ckey, .netTokenFetch, .cacheWrite ckey (.tok token) expiresIn])
        else (.ok token, cache, [.cacheRead ckey, .netTokenFetch])
  else
    match fetched with
    | .error e => (.error e, cache, [.netTokenFetch])
    | .ok token => (.ok token, cache, [.netTokenFetch])

/-- C10: with a cache and a non-empty cache key configured, a cache miss, and
a freshly fetched token whose expiry equals the current instant (computed
`expiresIn = 0`), `OAuth2Token` still writes the token with TTL 0; the
adapter stores it without a deadline, so it is readable at every later time
and every subsequent `OAuth2Token` call returns it from the cache without
contacting the server. -/
theorem oauth2Token_zero_ttl (c : Client) (now : Int) (cache : CacheState)
    (key : String) (scopes : List String) (t : OauthToken)
    (hc : c.hasCache = true) (hk : key ≠ "")
    (hmiss : tokenAt cache now (c.cacheKey key scopes "") = none)
    (hexp : t.expiry = some now) :
    Client.OAuth2Token c now cache (.ok t) key scopes =
      (.ok t, GoCache.Write cache now (c.cacheKey key scopes "") (.tok t) 0,
        [.cacheRead (c.cacheKey key scopes ""), .netTokenFetch,
         .cacheWrite (c.cacheKey key scopes "") (.tok t) 0]) ∧
    (∀ later : Int,
      tokenAt (GoCache.Write cache now (c.cacheKey key scopes "") (.tok t) 0) later
        (c.cacheKey key scopes "") = some t) ∧
    (∀ (later : Int) (fetched : Except String OauthToken),
      Client.OAuth2Token c later
        (GoCache.Write cache now (c.cacheKey key scopes "") (.tok t) 0) fetched key
        scopes =
        (.ok t, GoCache.Write cache now (c.cacheKey key scopes "") (.tok t) 0,
          [.cacheRead (c.cacheKey key scopes "")])) := by
  have hget : ∀ later : Int,
      tokenAt (GoCache.Write cache now (c.cacheKey key scopes "") (.tok t) 0) later
        (c.cacheKey key scopes "") = some t := by
    intro later
    simp [GoCache.Write, goCacheSet, tokenAt, goCacheGet, List.find?]
  refine ⟨?_, hget, ?_⟩
  · simp [Client.OAuth2Token, hc, hk, hmiss, hexp]
  · intro later fetched
    simp [Client.OAuth2Token, hc, hk, hget later]

/-- Witness for C10: a token expiring exactly at the current instant
(`now = 1000`) is cached with TTL 0 on an empty cache and served from the
cache forever after. -/
theorem oauth2Token_zero_ttl_witness :
    Client.OAuth2Token defaultClient 1000 { defaultExpiration := 3595, entries := [] }
      (.ok { accessToken := "abc", expiry := some 1000 }) "k" ["s1"] =
      (.ok { accessToken := "abc", expiry := some 1000 },
        GoCache.Write { defaultExpiration := 3595, entries := [] } 1000
          (defaultClient.cacheKey "k" ["s1"] "")
          (.tok { accessToken := "abc", expiry := some 1000 }) 0,
        [.cacheRead (defaultClient.cacheKey "k" ["s1"] ""), .netTokenFetch,
         .cacheWrite (defaultClient.cacheKey "k" ["s1"] "")
           (.tok { accessToken := "abc", expiry := some 1000 }) 0]) ∧
    (∀ later : Int,
      tokenAt (GoCache.Write { defaultExpiration := 3595, entries := [] } 1000
          (defaultClient.cacheKey "k" ["s1"] "")
          (.tok { accessToken := "abc", expiry := some 1000 }) 0) later
        (defaultClient.cacheKey "k" ["s1"] "") =
        some { accessToken := "abc", expiry := some 1000 }) ∧
    (∀ (later : Int) (fetched : Except String OauthToken),
      Client.OAuth2Token defaultClient later
        (GoCache.Write { defaultExpiration := 3595, entries := [] } 1000
          (defaultClient.cacheKey "k" ["s1"] "")
          (.tok { accessToken := "abc", expiry := some 1000 }) 0) fetched "k" ["s1"] =
        (.ok { accessToken := "abc", expiry := some 1000 },
          GoCache.Write { defaultExpiration := 3595, entries := [] } 1000
            (defaultClient.cacheKey "k" ["s1"] "")
            (.tok { accessToken := "abc", expiry := some 1000 }) 0,
          [.cacheRead (defaultClient.cacheKey "k" ["s1"] "")])) :=
  oauth2Token_zero_ttl defaultClient 1000 { defaultExpiration := 3595, entries := [] }
    "k" ["s1"] { accessToken := "abc", expiry := some 1000 }
    rfl (by decide) (by decide) rfl

/-! ## Token verification with caching (claims C4, C5), from `service.go`
(`VerificationOption` variant) -/

/-- `sand.VerificationOption`.  `numRetry = none` models a nil `*int`. -/
structure VerificationOption where
  targetScopes : List String
  resource : String
  action : String
  context : List (String × String)
  numRetry : Option Int
deriving DecidableEq, Repr

/-- From `service.go`:
```
func (s *Service) buildOption(opt *VerificationOption) {
    if opt.Resource == "" { opt.Resource = s.Resource }
    if len(opt.Context) == 0 { opt.Context = s.Context }
    if len(opt.TargetScopes) == 0 { opt.TargetScopes = []string{} }
    retry := s.DefaultRetryCount
    if opt.NumRetry != nil { retry = *opt.NumRetry }
    retry = s.tokenRequestRetryCount(retry)
    opt.NumRetry = &retry
}
``` -/
def Service.buildOption (s : Service) (opt : VerificationOption) : VerificationOption :=
  let resource := if opt.resource = "" then s.resource else opt.resource
  let context := if opt.context.length = 0 then s.context else opt.context
  let targetScopes := if opt.targetScopes.length = 0 then ([] : List String)
    else opt.targetScopes
  let retry0 := match opt.numRetry with
    | none => s.client.defaultRetryCount
    | some r => r
  let retry := s.client.tokenRequestRetryCount retry0
  { targetScopes := targetScopes, resource := resource, action := opt.action,
    context := context, numRetry := some retry }

/-- Environment oracles for one verification: the token-endpoint result used
if the service access token is not cached, and the verification endpoint's
answer — `none` models a transport error from `client.Do`, and
`some (status, body)` an HTTP response with the given status whose JSON body
unmarshals to `body` (`none`: unparsable). -/
structure VerifyEnv where
  fetched : Except String OauthToken
  verifyHTTP : Option (Nat × Option Verdict)
deriving Repr

/-- From `service.go` (`verifyToken`): guards on empty token/resource, obtains
the service access token via `s.Token("service-access-token", s.Scopes, ...)`
(the cache-aware `OAuth2Token` path), POSTs to the verification endpoint, and
classifies the response — transport error and non-200 other than 500 are
errors, 500 yields `(nil, nil)`, 200 yields the parsed body or a parse
error. -/
def Service.verifyToken (s : Service) (env : VerifyEnv) (now : Int)
    (cache : CacheState) (token : String) (opt : VerificationOption) :
    Except String (Option Verdict) × CacheState × List Event :=
  if token = "" ∨ opt.resource = "" then (.ok none, cache, [])
  else
    match Client.OAuth2Token s.client now cache env.fetched "service-access-token"
        s.scopes with
    | (.error e, cache1, evs) => (.error e, cache1, evs)
    | (.ok _, cache1, evs) =>
      match env.verifyHTTP with
      | none => (.error "connection error", cache1, evs ++ [.netVerify])
      | some (status, body) =>
        if status ≠ 200 then
          if status = 500 then (.ok none, cache1, evs ++ [.netVerify])
          else
            (.error ("Error response from the authentication service: " ++
              toString status), cache1, evs ++ [.netVerify])
        else
          match body with
          | none => (.error "unmarshal error", cache1, evs ++ [.netVerify])
          | some v => (.ok (some v), cache1, evs ++ [.netVerify])

/-- From `service.go`:
```
func (s *Service) VerifyTokenWithCache(token string, opt VerificationOption) (map[string]interface{}, error) {
    s.buildOption(&opt)
    if token == "" || opt.Resource == "" { return notAllowedResponse, nil }
    var ckey string
    if s.Cache != nil {
        ckey = s.cacheKey(token, opt.TargetScopes, opt.Resource)
        result := s.Cache.Read(ckey)
        response, ok := result.(map[string]interface{})
        if ok { return response, nil }
    }
    resp, err := s.verifyToken(token, opt)
    if err != nil || resp == nil { return notAllowedResponse, err }
    if s.Cache != nil {
        if resp["allowed"] == true {
            exp := s.DefaultExpTime
            if resp["exp"] != nil {
                expTime, ok := resp["exp"].(string)
                if ok { exp = s.expiryTime(expTime) }
            }
            s.Cache.Write(ckey, resp, time.Duration(exp)*time.Second)
        } else {
            s.Cache.Write(ckey, notAllowedResponse, time.Duration(s.DefaultExpTime)*time.Second)
        }
    }
    return resp, nil
}
```
The first result component is the returned map (`none` models a nil map). -/
def Service.VerifyTokenWithCache (s : Service) (env : VerifyEnv)
    (parse : String → Option Int) (now : Int) (cache : CacheState)
    (token : String) (opt0 : VerificationOption) :
    (Option Verdict × Option String) × CacheState × List Event :=
  let opt := s.buildOption opt0
  if token = "" ∨ opt.resource = "" then ((some notAllowedResponse, none), cache, [])
  else
    let ckey := s.client.cacheKey token opt.targetScopes opt.resource
    let readEvs : List Event := if s.client.hasCache then [.cacheRead ckey] else []
    let readHit : Option Verdict :=
      if s.client.hasCache then verdictAt cache now ckey else none
    match readHit with
    | some v => ((some v, none), cache, readEvs)
    | none =>
      match s.verifyToken env now cache token opt with
      | (.error e, cache1, evs) =>
        ((some notAllowedResponse, some e), cache1, readEvs ++ evs)
      | (.ok none, cache1, evs) =>
        ((some notAllowedResponse, none), cache1, readEvs ++ evs)
      | (.ok (some v), cache1, evs) =>
        if s.client.hasCache then
          if v.allowed = some true then
            let exp := match v.exp with
              | some es => s.expiryTime parse now es
              | none => s.defaultExpTime
            ((some v, none), GoCache.Write cache1 now ckey (.verd v) exp,
              readEvs ++ evs ++ [.cacheWrite ckey (.verd v) exp])
          else
            ((some v, none),
              GoCache.Write cache1 now ckey (.verd notAllowedResponse) s.defaultExpTime,
              readEvs ++ evs ++
                [.cacheWrite ckey (.verd notAllowedResponse) s.defaultExpTime])
        else ((some v, none), cache1, readEvs ++ evs)

/-- C5: an empty token, or options whose merged resource is empty, makes
`VerifyTokenWithCache` return the not-allowed sentinel with no error, leaving
the cache untouched and producing no events at all (no cache access, no
network contact). -/
theorem verifyTokenWithCache_short_circuit (s : Service) (env : VerifyEnv)
    (parse : String → Option Int) (now : Int) (cache : CacheState)
    (token : String) (opt : VerificationOption)
    (h : token = "" ∨ (s.buildOption opt).resource = "") :
    s.VerifyTokenWithCache env parse now cache token opt =
      ((some notAllowedResponse, none), cache, []) := by
  simp only [Service.VerifyTokenWithCache]
  rw [if_pos h]

/-- Witness for C5: an empty bearer token on the default service. -/
theorem verifyTokenWithCache_short_circuit_witness :
    defaultService.VerifyTokenWithCache
      { fetched := .ok { accessToken := "t", expiry := none }, verifyHTTP := none }
      sampleParse 0 { defaultExpiration := 3595, entries := [] } ""
      { targetScopes := [], resource := "", action := "any", context := [],
        numRetry := none } =
      ((some notAllowedResponse, none), { defaultExpiration := 3595, entries := [] },
        []) :=
  verifyTokenWithCache_short_circuit defaultService
    { fetched := .ok { accessToken := "t", expiry := none }, verifyHTTP := none }
    sampleParse 0 { defaultExpiration := 3595, entries := [] } ""
    { targetScopes := [], resource := "", action := "any", context := [],
      numRetry := none }
    (Or.inl rfl)

/-- Reading a verdict through a cache whose most recent entry holds an
`oauth2.Token`: the type assertion fails at that key, other keys are
unaffected. -/
theorem verdictAt_cons_tok (d : Int) (rest : List (String × CVal × Option Int))
    (now : Int) (k : String) (tk : OauthToken) (E : Option Int) (k2 : String) :
    verdictAt { defaultExpiration := d, entries := (k, CVal.tok tk, E) :: rest } now k2 =
      if k2 = k then none
      else verdictAt { defaultExpiration := d, entries := rest } now k2 := by
  by_cases hk : k2 = k
  · subst hk
    rcases E with _ | e
    · simp [verdictAt, goCacheGet, List.find?]
    · simp only [verdictAt, goCacheGet, List.find?, beq_self_eq_true, if_pos rfl]
      by_cases h : now > e <;> simp [h]
  · have hbeq : (k == k2) = false := by simp [Ne.symm hk]
    simp [verdictAt, goCacheGet, List.find?, hbeq, hk]

/-- Writing an `oauth2.Token` value can never create a readable verdict entry. -/
theorem verdictAt_write_tok (st : CacheState) (now2 now : Int) (k : String)
    (tk : OauthToken) (d : Int) (k2 : String) :
    verdictAt (GoCache.Write st now2 k (.tok tk) d) now k2 =
      if k2 = k then none else verdictAt st now k2 := by
  exact verdictAt_cons_tok st.defaultExpiration st.entries now k tk _ k2

/-- On a successful fetch oracle, `OAuth2Token` always succeeds, writes at
most an `oauth2.Token` value (never a verdict), and preserves the absence of
any verdict entry. -/
theorem oauth2Token_ok_shape (c : Client) (now : Int) (cache : CacheState)
    (t0 : OauthToken) (key : String) (scopes : List String) :
    ∃ t cache1 evs,
      Client.OAuth2Token c now cache (.ok t0) key scopes = (.ok t, cache1, evs) ∧
      (∀ k v ttl, Event.cacheWrite k v ttl ∈ evs → ∃ tk, v = CVal.tok tk) ∧
      (∀ k2, verdictAt cache now k2 = none → verdictAt cache1 now k2 = none) := by
  by_cases hcond : c.hasCache ∧ key ≠ ""
  · rcases htok : tokenAt cache now (c.cacheKey key scopes "") with _ | t
    · by_cases hexp : (match t0.expiry with | none => (0 : Int) | some e => e - now) ≥ 0
      · refine ⟨t0,
          GoCache.Write cache now (c.cacheKey key scopes "") (.tok t0)
            (match t0.expiry with | none => 0 | some e => e - now),
          [.cacheRead (c.cacheKey key scopes ""), .netTokenFetch,
            .cacheWrite (c.cacheKey key scopes "") (.tok t0)
              (match t0.expiry with | none => 0 | some e => e - now)], ?_, ?_, ?_⟩
        · simp only [Client.OAuth2Token, if_pos hcond, htok]
          rw [if_pos hexp]
        · intro k v ttl hv
          simp only [List.mem_cons, List.not_mem_nil, or_false] at hv
          rcases hv with h | h | h
          · cases h
          · cases h
          · injection h with h1 h2 h3
            exact ⟨t0, h2⟩
        · intro k2 h
          rw [verdictAt_write_tok]
          split <;> simp [h]
      · refine ⟨t0, cache,
          [.cacheRead (c.cacheKey key scopes ""), .netTokenFetch], ?_, by simp,
          fun k2 h => h⟩
        simp only [Client.OAuth2Token, if_pos hcond, htok]
        rw [if_neg hexp]
    · exact ⟨t, cache, [.cacheRead (c.cacheKey key scopes "")],
        by simp only [Client.OAuth2Token, if_pos hcond, htok], by simp, fun k2 h => h⟩
  · exact ⟨t0, cache, [.netTokenFetch],
      by simp only [Client.OAuth2Token, if_neg hcond], by simp, fun k2 h => h⟩

/-- When the verification endpoint answers 500 (and the service access token
is obtainable), `verifyToken` yields `(nil, nil)`: success with a nil map.
The endpoint is contacted, and no verdict is ever written. -/
theorem verifyToken_500 (s : Service) (env : VerifyEnv) (now : Int)
    (cache : CacheState) (token : String) (opt : VerificationOption)
    (t0 : OauthToken) (b : Option Verdict)
    (htok : token ≠ "") (hres : opt.resource ≠ "")
    (hf : env.fetched = .ok t0) (h500 : env.verifyHTTP = some (500, b)) :
    ∃ cache1 evs,
      s.verifyToken env now cache token opt = (.ok none, cache1, evs) ∧
      Event.netVerify ∈ evs ∧
      (∀ k v ttl, Event.cacheWrite k v ttl ∈ evs → ∃ tk, v = CVal.tok tk) ∧
      (∀ k2, verdictAt cache now k2 = none → verdictAt cache1 now k2 = none) := by
  obtain ⟨t, cache1, evs, hoauth, hwr, hpres⟩ :=
    oauth2Token_ok_shape s.client now cache t0 "service-access-token" s.scopes
  refine ⟨cache1, evs ++ [.netVerify], ?_, by simp, ?_, hpres⟩
  · unfold Service.verifyToken
    rw [if_neg (by simp [htok, hres]), hf, hoauth, h500]
    norm_num
  · intro k v ttl hv
    simp only [List.mem_append, List.mem_singleton] at hv
    rcases hv with h | h
    · exact hwr k v ttl h
    · cases h

/-- One full `VerifyTokenWithCache` run against a 500-answering verification
endpoint: returns the not-allowed sentinel with no error, contacts the
endpoint, writes no verdict to the cache, and leaves the verdict key
unreadable. -/
theorem vtc_500_run (s : Service) (env : VerifyEnv) (parse : String → Option Int)
    (now : Int) (cache : CacheState) (token : String) (opt : VerificationOption)
    (t0 : OauthToken) (b : Option Verdict)
    (htok : token ≠ "") (hres : (s.buildOption opt).resource ≠ "")
    (hmiss : verdictAt cache now
      (s.client.cacheKey token (s.buildOption opt).targetScopes
        (s.buildOption opt).resource) = none)
    (hf : env.fetched = .ok t0) (h500 : env.verifyHTTP = some (500, b)) :
    ∃ cache1 evs,
      s.VerifyTokenWithCache env parse now cache token opt =
        ((some notAllowedResponse, none), cache1,
          (if s.client.hasCache then
            [Event.cacheRead (s.client.cacheKey token (s.buildOption opt).targetScopes
              (s.buildOption opt).resource)] else []) ++ evs) ∧
      Event.netVerify ∈ evs ∧
      (∀ k v ttl, Event.cacheWrite k v ttl ∈ evs → ∃ tk, v = CVal.tok tk) ∧
      verdictAt cache1 now
        (s.client.cacheKey token (s.buildOption opt).targetScopes
          (s.buildOption opt).resource) = none := by
  obtain ⟨cache1, evs, hvt, hnet, hwr, hpres⟩ :=
    verifyToken_500 s env now cache token (s.buildOption opt) t0 b htok hres hf h500
  refine ⟨cache1, evs, ?_, hnet, hwr, hpres _ hmiss⟩
  simp only [Service.VerifyTokenWithCache]
  rw [if_neg (by simp [htok, hres])]
  have hread : (if s.client.hasCache then
      verdictAt cache now (s.client.cacheKey token (s.buildOption opt).targetScopes
        (s.buildOption opt).resource) else none) = none := by
    by_cases h : s.client.hasCache <;> simp [h, hmiss]
  rw [hread, hvt]

/-- Environment oracles for the C4 counterexample/witness: token endpoint
succeeds, verification endpoint answers 500 with an unparsable body. -/
def sampleEnv500 : VerifyEnv :=
  { fetched := .ok { accessToken := "at", expiry := none },
    verifyHTTP := some (500, none) }

/-- An empty cache with the `NewClient` default expiration. -/
def emptyCache : CacheState := { defaultExpiration := 3595, entries := [] }

/-- Options that take all defaults from the service. -/
def sampleOpt : VerificationOption :=
  { targetScopes := [], resource := "", action := "any", context := [],
    numRetry := none }

/-- C4 counterexample: with a non-empty token and resource and a
500-answering verification endpoint, `VerifyTokenWithCache` does not return
`(nil, nil)` — it returns the not-allowed sentinel `{allowed: false}` with a
nil error (it is the inner `verifyToken` that returns `(nil, nil)`). -/
theorem vtc_500_claim_false :
    (defaultService.VerifyTokenWithCache sampleEnv500 sampleParse 0 emptyCache
      "tkn" sampleOpt).1 = (some notAllowedResponse, none) ∧
    (some notAllowedResponse : Option Verdict) ≠ none := by
  exact ⟨rfl, by decide⟩

/-- C4 amended: on a 500 from the verification endpoint (with the service
access token obtainable), `VerifyTokenWithCache` returns the not-allowed
sentinel with a nil error, never writes a verdict to the cache (the only
possible write is the service access token), and a subsequent identical call
still reaches the verification endpoint. -/
theorem vtc_500_amended (s : Service) (env : VerifyEnv) (parse : String → Option Int)
    (now : Int) (cache : CacheState) (token : String) (opt : VerificationOption)
    (t0 : OauthToken) (b : Option Verdict)
    (htok : token ≠ "") (hres : (s.buildOption opt).resource ≠ "")
    (hmiss : verdictAt cache now
      (s.client.cacheKey token (s.buildOption opt).targetScopes
        (s.buildOption opt).resource) = none)
    (hf : env.fetched = .ok t0) (h500 : env.verifyHTTP = some (500, b)) :
    (s.VerifyTokenWithCache env parse now cache token opt).1 =
      (some notAllowedResponse, none) ∧
    (∀ k v ttl, Event.cacheWrite k v ttl ∈
        (s.VerifyTokenWithCache env parse now cache token opt).2.2 →
      ∃ tk, v = CVal.tok tk) ∧
    Event.netVerify ∈
      (s.VerifyTokenWithCache env parse now
        (s.VerifyTokenWithCache env parse now cache token opt).2.1 token opt).2.2 := by
  obtain ⟨cache1, evs, hrun, hnet, hwr, hpres⟩ :=
    vtc_500_run s env parse now cache token opt t0 b htok hres hmiss hf h500
  obtain ⟨cache2, evs2, hrun2, hnet2, _, _⟩ :=
    vtc_500_run s env parse now cache1 token opt t0 b htok hres hpres hf h500
  refine ⟨by rw [hrun], ?_, ?_⟩
  · intro k v ttl hv
    rw [hrun] at hv
    simp only [List.mem_append] at hv
    rcases hv with h | h
    · rcases hc : s.client.hasCache with _ | _ <;> rw [hc] at h <;> simp at h
    · exact hwr k v ttl h
  · rw [hrun]
    show Event.netVerify ∈ (s.VerifyTokenWithCache env parse now cache1 token opt).2.2
    rw [hrun2]
    simp [hnet2]

/-- Witness for the amended C4 at the concrete counterexample inputs. -/
theorem vtc_500_amended_witness :
    (defaultService.VerifyTokenWithCache sampleEnv500 sampleParse 0 emptyCache
      "tkn" sampleOpt).1 = (some notAllowedResponse, none) ∧
    (∀ k v ttl, Event.cacheWrite k v ttl ∈
        (defaultService.VerifyTokenWithCache sampleEnv500 sampleParse 0 emptyCache
          "tkn" sampleOpt).2.2 →
      ∃ tk, v = CVal.tok tk) ∧
    Event.netVerify ∈
      (defaultService.VerifyTokenWithCache sampleEnv500 sampleParse 0
        (defaultService.VerifyTokenWithCache sampleEnv500 sampleParse 0 emptyCache
          "tkn" sampleOpt).2.1 "tkn" sampleOpt).2.2 :=
  vtc_500_amended defaultService sampleEnv500 sampleParse 0 emptyCache "tkn" sampleOpt
    { accessToken := "at", expiry := none } none
    (by decide) (by decide) (by decide) rfl rfl

/-! ## The 401 retry loop (claim C3), from `client.go` (`part_001`) -/

/-- The observable actions of one iteration of the 401 retry loop at attempt
`i`: sleep `2^i` seconds, delete the cached token (when a cache is
configured), call `Token` with retry count 0, and re-invoke the caller
function (call number `i + 1`). -/
def retryBlock (key : String) (hasCache : Bool) (i : Nat) : List Event :=
  Event.sleep (2 ^ i) ::
    ((if hasCache then [Event.cacheDelete key] else []) ++
      [Event.tokenReq 0, Event.execCall (i + 1)])

/-- From `client.go` (`RequestWithCustomRetry`), the retry loop
```
for retry := 0; resp.StatusCode == http.StatusUnauthorized && retry < clientRetry; retry++ {
    sleep := time.Duration(math.Pow(2, float64(retry)))
    time.Sleep(sleep * time.Second)
    if c.Cache != nil { c.Cache.Delete(c.cacheKey(cacheKey, scopes, "")) }
    token, err = c.Token(cacheKey, scopes, 0)
    ...
    resp, err = exec(token)
    ...
}
```
modelled in an error-free environment: `statuses n` is the HTTP status code
returned by the `n`-th invocation of the caller function (call 0 being the
one before the loop), and `key` is already the built cache key.  Returns the
trace of loop events and the final status. -/
def requestLoop (statuses : Nat → Nat) (key : String) (hasCache : Bool)
    (clientRetry : Nat) (retry : Nat) : List Event × Nat :=
  if h : statuses retry = 401 ∧ retry < clientRetry then
    let rest := requestLoop statuses key hasCache clientRetry (retry + 1)
    (retryBlock key hasCache retry ++ rest.1, rest.2)
  else ([], statuses retry)
termination_by clientRetry - retry
decreasing_by omega

/-- Number of iterations the retry loop performs. -/
def loopIters (statuses : Nat → Nat) (clientRetry retry : Nat) : Nat :=
  if statuses retry = 401 ∧ retry < clientRetry then
    loopIters statuses clientRetry (retry + 1) + 1
  else 0
termination_by clientRetry - retry
decreasing_by omega

/-- From `client.go`:
```
func (c *Client) RequestWithCustomRetry(cacheKey string, scopes []string, numRetry int, exec ...) ... {
    clientRetry := c.clientRequestRetryCount(numRetry)
    token, err := c.Token(cacheKey, scopes, numRetry)
    ...
    resp, err := exec(token)
    ...
    if clientRetry > 0 { <retry loop> }
    return resp, err
}
```
in the same error-free environment: the initial `Token` call (with the raw
`numRetry`) and caller invocation, then the loop. -/
def Client.RequestWithCustomRetry (c : Client) (key : String) (scopes : List String)
    (numRetry : Int) (statuses : Nat → Nat) : List Event × Nat :=
  let clientRetry := c.clientRequestRetryCount numRetry
  let first : List Event := [Event.tokenReq numRetry, Event.execCall 0]
  if clientRetry > 0 then
    let r := requestLoop statuses (c.cacheKey key scopes "") c.hasCache
      clientRetry.toNat 0
    (first ++ r.1, r.2)
  else (first, statuses 0)

/-- The resolved client-request retry count is always at least 1. -/
theorem clientRequestRetryCount_pos (c : Client) (r : Int) :
    1 ≤ c.clientRequestRetryCount r := by
  unfold Client.clientRequestRetryCount
  split
  · omega
  · split <;> omega

theorem requestLoop_eq (statuses : Nat → Nat) (key : String) (hasCache : Bool)
    (clientRetry : Nat) :
    ∀ fuel retry, clientRetry - retry ≤ fuel →
    requestLoop statuses key hasCache clientRetry retry =
      ((List.range' retry (loopIters statuses clientRetry retry)).flatMap
          (retryBlock key hasCache),
        statuses (retry + loopIters statuses clientRetry retry)) := by
  intro fuel
  induction fuel with
  | zero =>
    intro retry hle
    have hcond : ¬(statuses retry = 401 ∧ retry < clientRetry) := by omega
    rw [requestLoop, loopIters, dif_neg hcond, if_neg hcond]
    simp
  | succ fuel ih =>
    intro retry hle
    by_cases hcond : statuses retry = 401 ∧ retry < clientRetry
    · rw [requestLoop, loopIters, dif_pos hcond, if_pos hcond]
      have hrec := ih (retry + 1) (by omega)
      rw [hrec, List.range'_succ]
      simp only [List.flatMap_cons]
      have harith : retry + 1 + loopIters statuses clientRetry (retry + 1) =
          retry + (loopIters statuses clientRetry (retry + 1) + 1) := by omega
      rw [harith]
    · rw [requestLoop, loopIters, dif_neg hcond, if_neg hcond]
      simp

theorem loopIters_stop (statuses : Nat → Nat) (clientRetry : Nat) :
    ∀ fuel retry, clientRetry - retry ≤ fuel →
    ¬(statuses (retry + loopIters statuses clientRetry retry) = 401 ∧
      retry + loopIters statuses clientRetry retry < clientRetry) := by
  intro fuel
  induction fuel with
  | zero =>
    intro retry hle
    have hcond : ¬(statuses retry = 401 ∧ retry < clientRetry) := by omega
    rw [loopIters, if_neg hcond]
    simpa using hcond
  | succ fuel ih =>
    intro retry hle
    by_cases hcond : statuses retry = 401 ∧ retry < clientRetry
    · rw [loopIters, if_pos hcond]
      have := ih (retry + 1) (by omega)
      convert this using 3 <;> ring_nf
    · rw [loopIters, if_neg hcond]
      simpa using hcond

theorem loopIters_entered (statuses : Nat → Nat) (clientRetry : Nat) :
    ∀ fuel retry, clientRetry - retry ≤ fuel →
    ∀ i, retry ≤ i → i < retry + loopIters statuses clientRetry retry →
      statuses i = 401 ∧ i < clientRetry := by
  intro fuel
  induction fuel with
  | zero =>
    intro retry hle i hi1 hi2
    have hcond : ¬(statuses retry = 401 ∧ retry < clientRetry) := by omega
    rw [loopIters, if_neg hcond] at hi2
    omega
  | succ fuel ih =>
    intro retry hle i hi1 hi2
    by_cases hcond : statuses retry = 401 ∧ retry < clientRetry
    · rw [loopIters, if_pos hcond] at hi2
      by_cases hi : i = retry
      · exact hi ▸ hcond
      · exact ih (retry + 1) (by omega) i (by omega) (by omega)
    · rw [loopIters, if_neg hcond] at hi2
      omega

theorem loopIters_le (statuses : Nat → Nat) (clientRetry : Nat) :
    ∀ fuel retry, clientRetry - retry ≤ fuel →
      retry + loopIters statuses clientRetry retry ≤ clientRetry ∨
      loopIters statuses clientRetry retry = 0 := by
  intro fuel
  induction fuel with
  | zero =>
    intro retry hle
    have hcond : ¬(statuses retry = 401 ∧ retry < clientRetry) := by omega
    rw [loopIters, if_neg hcond]
    right; rfl
  | succ fuel ih =>
    intro retry hle
    by_cases hcond : statuses retry = 401 ∧ retry < clientRetry
    · rw [loopIters, if_pos hcond]
      rcases ih (retry + 1) (by omega) with h | h <;> left <;> omega
    · rw [loopIters, if_neg hcond]
      right; rfl

/-- C3: with a cache configured, `RequestWithCustomRetry` performs the
initial token fetch (raw retry count) and caller invocation, then exactly
`loopIters` retry iterations, the `i`-th (from 0) consisting of a `2^i`
second sleep, a cache delete of the key built from `(cacheKey, scopes)`, a
token fetch with retry count exactly 0, and caller invocation `i + 1`; every
iteration is entered with status 401 and retries remaining, and the loop
stops exactly when the status is no longer 401 or the retries are
exhausted. -/
theorem requestWithCustomRetry_spec (c : Client) (key : String)
    (scopes : List String) (numRetry : Int) (statuses : Nat → Nat)
    (hc : c.hasCache = true) :
    c.RequestWithCustomRetry key scopes numRetry statuses =
      ([Event.tokenReq numRetry, Event.execCall 0] ++
        (List.range
            (loopIters statuses (c.clientRequestRetryCount numRetry).toNat 0)).flatMap
          (fun i =>
            Event.sleep (2 ^ i) :: Event.cacheDelete (c.cacheKey key scopes "") ::
              [Event.tokenReq 0, Event.execCall (i + 1)]),
        statuses (loopIters statuses (c.clientRequestRetryCount numRetry).toNat 0)) ∧
    (∀ i, i < loopIters statuses (c.clientRequestRetryCount numRetry).toNat 0 →
      statuses i = 401 ∧ i < (c.clientRequestRetryCount numRetry).toNat) ∧
    (statuses (loopIters statuses (c.clientRequestRetryCount numRetry).toNat 0) ≠ 401 ∨
      loopIters statuses (c.clientRequestRetryCount numRetry).toNat 0 =
        (c.clientRequestRetryCount numRetry).toNat) := by
  have hpos : c.clientRequestRetryCount numRetry > 0 := clientRequestRetryCount_pos c numRetry
  refine ⟨?_, ?_, ?_⟩
  · simp only [Client.RequestWithCustomRetry, if_pos hpos]
    rw [requestLoop_eq statuses (c.cacheKey key scopes "") c.hasCache
      (c.clientRequestRetryCount numRetry).toNat
      (c.clientRequestRetryCount numRetry).toNat 0 (by omega)]
    rw [← List.range_eq_range', hc]
    have hblock : retryBlock (c.cacheKey key scopes "") true =
        fun i => Event.sleep (2 ^ i) :: Event.cacheDelete (c.cacheKey key scopes "") ::
          [Event.tokenReq 0, Event.execCall (i + 1)] := by
      funext i
      simp [retryBlock]
    rw [hblock]
    simp
  · intro i hi
    exact loopIters_entered statuses (c.clientRequestRetryCount numRetry).toNat
      (c.clientRequestRetryCount numRetry).toNat 0 (by omega) i (by omega) (by omega)
  · have hstop := loopIters_stop statuses (c.clientRequestRetryCount numRetry).toNat
      (c.clientRequestRetryCount numRetry).toNat 0 (by omega)
    have hle := loopIters_le statuses (c.clientRequestRetryCount numRetry).toNat
      (c.clientRequestRetryCount numRetry).toNat 0 (by omega)
    simp only [Nat.zero_add] at hstop hle
    by_cases h401 : statuses (loopIters statuses
        (c.clientRequestRetryCount numRetry).toNat 0) = 401
    · right
      rcases hle with h | h <;> omega
    · exact Or.inl h401

/-- A status oracle for the C3 witness: 401 twice, then 200. -/
def sampleStatuses (n : Nat) : Nat := if n < 2 then 401 else 200

/-- Witness for C3: the default client with `numRetry = 2` against a service
answering 401, 401, 200 — two retry iterations, then the 200 is returned. -/
theorem requestWithCustomRetry_spec_witness :
    defaultClient.RequestWithCustomRetry "k" ["s1"] 2 sampleStatuses =
      ([Event.tokenReq 2, Event.execCall 0] ++
        (List.range
            (loopIters sampleStatuses (defaultClient.clientRequestRetryCount 2).toNat 0)).flatMap
          (fun i =>
            Event.sleep (2 ^ i) ::
              Event.cacheDelete (defaultClient.cacheKey "k" ["s1"] "") ::
              [Event.tokenReq 0, Event.execCall (i + 1)]),
        sampleStatuses
          (loopIters sampleStatuses (defaultClient.clientRequestRetryCount 2).toNat 0)) ∧
    (∀ i, i < loopIters sampleStatuses (defaultClient.clientRequestRetryCount 2).toNat 0 →
      sampleStatuses i = 401 ∧ i < (defaultClient.clientRequestRetryCount 2).toNat) ∧
    (sampleStatuses
        (loopIters sampleStatuses (defaultClient.clientRequestRetryCount 2).toNat 0) ≠ 401 ∨
      loopIters sampleStatuses (defaultClient.clientRequestRetryCount 2).toNat 0 =
        (defaultClient.clientRequestRetryCount 2).toNat) :=
  requestWithCustomRetry_spec defaultClient "k" ["s1"] 2 sampleStatuses rfl

end SandGo
